import Mathlib

/-!
Verification development for the task-status-checker repository.

The embedding models the two core components of `src/focus-chain.ts` and the
task state store module bundled with it:
* the Task State Store (`create` / `getStatus` / `update` over JSON task files),
* the Focus Chain Checkpoint Engine
  (`initializeFocusChain` / `addFocusCheckpoint` / `getFocusStatus`).

Filesystem state (one JSON file per identifier) is modelled as an association
list from file key to parsed record; `now()` and `crypto.randomUUID()` are
passed in as explicit arguments.
-/

namespace TaskStatusChecker

/-- Whitespace test used by the model of JavaScript `String.prototype.trim`. -/
def isWsChar (c : Char) : Bool :=
  c == ' ' || c == '\t' || c == '\n' || c == '\r'

/-- Model of JavaScript `s.trim()`: drop whitespace from both ends. -/
def jsTrim (s : String) : String :=
  ⟨((s.data.dropWhile isWsChar).reverse.dropWhile isWsChar).reverse⟩

/-- Lexicographic comparison of character lists by code point. -/
def strLeAux : List Char → List Char → Bool
  | [], _ => true
  | _ :: _, [] => false
  | a :: as, b :: bs =>
    if a.val < b.val then true
    else if a.val = b.val then strLeAux as bs
    else false

/-- Lexicographic order on strings; on fixed-width ISO-8601 timestamps this
coincides with chronological order. -/
def strLe (a b : String) : Bool :=
  strLeAux a.data b.data

/-- The list is non-decreasing under `strLe`. -/
def nondecreasing : List String → Bool
  | [] => true
  | [_] => true
  | a :: b :: rest => strLe a b && nondecreasing (b :: rest)

/-- Finite-map read over the association-list model of a storage directory;
mirrors "read the file keyed by `key`" (`none` plays the role of ENOENT). -/
def storeGet {α : Type} (store : List (String × α)) (key : String) : Option α :=
  List.lookup key store

/-- Finite-map write: mirrors `fs.writeFile` on the file keyed by `key`
(overwrite if present, create otherwise). -/
def storeSet {α : Type} : List (String × α) → String → α → List (String × α)
  | [], key, v => [(key, v)]
  | (k, w) :: rest, key, v =>
    if k == key then (key, v) :: rest else (k, w) :: storeSet rest key v

/-- The `TaskStatus` record persisted per task (interface `TaskStatus`).
`status` is carried as a raw string because persisted payloads are arbitrary
JSON; `validateTaskStatus` enforces the enumeration at runtime. -/
structure TaskStatus where
  status : String
  owner : String
  details : String
  started_at : String
  updated_at : String
deriving DecidableEq, Repr

/-- The valid status enumeration (`validStatuses` in the source). -/
def validStatuses : List String :=
  ["running", "completed", "failed", "blocked"]

/-- Model of the source's timestamp regex
`^\d\x7b4\x7d-\d\x7b2\x7d-\d\x7b2\x7dT\d\x7b2\x7d:\d\x7b2\x7d:\d\x7b2\x7d\.\d\x7b3\x7dZ$`:
exactly 24 characters in the millisecond-precision UTC ISO-8601 shape. -/
def isIsoTimestamp (s : String) : Bool :=
  match s.data with
  | [y1, y2, y3, y4, s1, mo1, mo2, s2, d1, d2, t1, h1, h2, c1, mi1, mi2, c2,
     se1, se2, p1, f1, f2, f3, z1] =>
    y1.isDigit && y2.isDigit && y3.isDigit && y4.isDigit && s1 == '-' &&
    mo1.isDigit && mo2.isDigit && s2 == '-' && d1.isDigit && d2.isDigit &&
    t1 == 'T' && h1.isDigit && h2.isDigit && c1 == ':' &&
    mi1.isDigit && mi2.isDigit && c2 == ':' && se1.isDigit && se2.isDigit &&
    p1 == '.' && f1.isDigit && f2.isDigit && f3.isDigit && z1 == 'Z'
  | _ => false

/-- Error taxonomy of the task store: generic `Error` messages from argument
or payload validation, `InvalidStatusError`, and `TaskNotFoundError`. -/
inductive TaskErr where
  | validation (msg : String)
  | invalidStatus (status : String)
  | notFound (taskId : String)
deriving DecidableEq, Repr

/-- The `.alfredo/tasks` directory: task-id file key to parsed record. -/
abbrev TaskStore := List (String × TaskStatus)

/-- Model of `create(owner, details)`. The JS falsy/`typeof` guards are
subsumed by the trimmed-length checks in this typed model; `freshId` stands
for the `randomUUID()` result and `now` for `new Date().toISOString()`. -/
def create (store : TaskStore) (owner details freshId now : String) :
    TaskStore × Except TaskErr String :=
  if (jsTrim owner).length = 0 then
    (store, .error (.validation "Owner parameter is required and must be a non-empty string"))
  else if (jsTrim details).length = 0 then
    (store, .error (.validation "Details parameter is required and must be a non-empty string"))
  else
    let taskStatus : TaskStatus :=
      { status := "running", owner := jsTrim owner, details := jsTrim details,
        started_at := now, updated_at := now }
    (storeSet store freshId taskStatus, .ok freshId)

/-- Model of `validateTaskStatus(obj)` on an already-parsed record; the
object/string-typing checks of the source are vacuous at this type. -/
def validateTaskStatus (t : TaskStatus) : Except String Unit :=
  if (validStatuses.contains t.status) = false then
    .error ("Invalid status: " ++ t.status ++ ". Must be one of: running, completed, failed, blocked")
  else if (jsTrim t.owner).length = 0 then
    .error "Owner must be a non-empty string"
  else if (isIsoTimestamp t.started_at) = false then
    .error "started_at must be a valid ISO 8601 timestamp"
  else if (isIsoTimestamp t.updated_at) = false then
    .error "updated_at must be a valid ISO 8601 timestamp"
  else
    .ok ()

/-- Model of `update(task_id, new_status, new_details)`, with the checks in
source order: task-id validation, trimmed-details non-emptiness, status
enumeration, file existence, stored-record validation, then the single
overwrite. Returns the (possibly updated) store and the outcome. -/
def updateRun (store : TaskStore) (now task_id new_status new_details : String) :
    TaskStore × Except TaskErr Unit :=
  if (jsTrim task_id).length = 0 then
    (store, .error (.validation "Task ID parameter is required and must be a non-empty string"))
  else if (jsTrim new_details).length = 0 then
    (store, .error (.validation "Details parameter is required and must be a non-empty string"))
  else if (validStatuses.contains new_status) = false then
    (store, .error (.invalidStatus new_status))
  else
    match storeGet store (jsTrim task_id) with
    | none => (store, .error (.notFound (jsTrim task_id)))
    | some existingTask =>
      match validateTaskStatus existingTask with
      | .error msg => (store, .error (.validation msg))
      | .ok _ =>
        (storeSet store (jsTrim task_id)
          { status := new_status, owner := existingTask.owner,
            details := jsTrim new_details, started_at := existingTask.started_at,
            updated_at := now }, .ok ())

/-- One `update` call of a sequence: its arguments and its `now()` reading. -/
structure UpdateCall where
  new_status : String
  new_details : String
  now : String
deriving DecidableEq, Repr

/-- Run a sequence of `update` calls against one task id, stopping at the
first failure. -/
def runUpdates (store : TaskStore) (task_id : String) :
    List UpdateCall → Except TaskErr TaskStore
  | [] => .ok store
  | call :: rest =>
    match updateRun store call.now task_id call.new_status call.new_details with
    | (store1, .ok _) => runUpdates store1 task_id rest
    | (_, .error e) => .error e

/-- The `updated_at` value observed after each successful call of the
sequence (empty past the first failure). -/
def updatedList (store : TaskStore) (task_id : String) :
    List UpdateCall → List String
  | [] => []
  | call :: rest =>
    match updateRun store call.now task_id call.new_status call.new_details with
    | (store1, .ok _) =>
      (match storeGet store1 (jsTrim task_id) with
       | some r => r.updated_at
       | none => "") :: updatedList store1 task_id rest
    | (_, .error _) => []

/-- One entry of `FocusCheckpoint.tasks`. -/
structure FocusTask where
  id : String
  description : String
  status : String
  timestamp : String
deriving DecidableEq, Repr

/-- The `FocusCheckpoint` record persisted per task id
(interface `FocusCheckpoint`; `lastReinject` is the optional field). -/
structure FocusCheckpoint where
  taskId : String
  objective : String
  taskCount : Nat
  tasks : List FocusTask
  lastReinject : Option String := none
deriving DecidableEq, Repr

/-- The `.alfredo/checkpoints` directory: task-id file key to parsed log. -/
abbrev FocusStore := List (String × FocusCheckpoint)

/-- The checkpoint object written by `initializeFocusChain`. -/
def initLog (taskId objective : String) : FocusCheckpoint :=
  { taskId := taskId, objective := objective, taskCount := 0, tasks := [],
    lastReinject := none }

/-- Model of `initializeFocusChain(taskId, objective)`: write a fresh log
(creating or overwriting the file keyed by `taskId`). -/
def initializeFocusChain (store : FocusStore) (taskId objective : String) :
    FocusStore :=
  storeSet store taskId (initLog taskId objective)

/-- Model of `Array.prototype.join('\n')` on the mapped description lines. -/
def joinLines : List String → String
  | [] => ""
  | [x] => x
  | x :: y :: rest => x ++ "\n" ++ joinLines (y :: rest)

/-- The horizontal rule of the reinjection message: the source line holds the
three-character unit repeated 40 times. -/
def lineSep : String :=
  String.join (List.replicate 40 "‚îÅ")

/-- Model of `generateFocusReinject(checkpoint)`: the template literal of the
source, with its `filter`-based completed/pending split. -/
def generateFocusReinject (checkpoint : FocusCheckpoint) : String :=
  let completed := checkpoint.tasks.filter (fun t => t.status == "completed")
  let pending := checkpoint.tasks.filter (fun t => t.status != "completed")
  "\uF8FFüéØ FOCUS REINJECT - TASK #" ++ toString checkpoint.taskCount ++ "\n" ++
  lineSep ++ "\n" ++
  "ORIGINAL OBJECTIVE: " ++ checkpoint.objective ++ "\n" ++
  lineSep ++ "\n" ++
  "\n" ++
  "‚úÖ COMPLETED (" ++ toString completed.length ++ "):\n" ++
  joinLines (completed.map (fun t => "- " ++ t.description)) ++ "\n" ++
  "\n" ++
  "‚è≥ REMAINING (" ++ toString pending.length ++ "):\n" ++
  joinLines (pending.map (fun t => "- " ++ t.description)) ++ "\n" ++
  "\n" ++
  "‚ö†Ô∏è CRITICAL: Stay focused on original objective. No scope creep."

/-- The existing-log branch of `addFocusCheckpoint`: push the new entry,
increment `taskCount`, and on a threshold multiple compute the reinjection
message and stamp `lastReinject`. `freshId` stands for `crypto.randomUUID()`
and `now` for `new Date().toISOString()`. -/
def addCheckpointStep (c : FocusCheckpoint) (description status freshId now : String) :
    FocusCheckpoint × Option String :=
  let c1 : FocusCheckpoint :=
    { c with tasks := c.tasks ++ [{ id := freshId, description := description,
                                    status := status, timestamp := now }],
             taskCount := c.taskCount + 1 }
  if c1.taskCount % 5 = 0 then
    let reinjectMessage := generateFocusReinject c1
    ({ c1 with lastReinject := some now }, some reinjectMessage)
  else
    (c1, none)

/-- Model of `addFocusCheckpoint(taskId, description, status)`: reading a
missing file (ENOENT) triggers `initializeFocusChain(taskId, description)`
and returns `null`; otherwise the step above runs and the result is written
back. -/
def addFocusCheckpoint (store : FocusStore) (taskId description status freshId now : String) :
    FocusStore × Option String :=
  match storeGet store taskId with
  | none => (initializeFocusChain store taskId description, none)
  | some checkpoint =>
    let res := addCheckpointStep checkpoint description status freshId now
    (storeSet store taskId res.1, res.2)

/-- Checkpoint logs producible by the engine itself: a freshly initialized
log (explicit `initializeFocusChain` or the implicit ENOENT fallback), or the
result of one more `addFocusCheckpoint` on such a log. -/
inductive ReachableLog : FocusCheckpoint → Prop where
  | init (taskId objective : String) : ReachableLog (initLog taskId objective)
  | step (c : FocusCheckpoint) (description status freshId now : String) :
      ReachableLog c →
      ReachableLog (addCheckpointStep c description status freshId now).1

/-- Parsed JSON values, as produced by `JSON.parse`. -/
inductive Json where
  | null
  | bool (b : Bool)
  | num (n : Int)
  | str (s : String)
  | arr (elems : List Json)
  | obj (fields : List (String × Json))

/-- Object field access on a parsed JSON value. -/
def Json.getField : Json → String → Option Json
  | .obj fields, key => List.lookup key fields
  | _, _ => none

/-- Raw content of a checkpoint file as `JSON.parse` sees it: either a value
it parses successfully, or text it throws on. -/
inductive FileContent where
  | parseable (value : Json)
  | garbage (raw : String)

/-- Model of `getFocusStatus(taskId)`: a missing file (ENOENT) yields `null`,
an unparseable file propagates the parse error, and any parseable payload is
returned exactly as parsed — the source applies no schema validation to it. -/
def getFocusStatusJson (files : List (String × FileContent)) (taskId : String) :
    Except String (Option Json) :=
  match storeGet files taskId with
  | none => .ok none
  | some (.parseable value) => .ok (some value)
  | some (.garbage raw) => .error ("Unexpected token in JSON: " ++ raw)

/-- Modelled from the spec: §4.1 describes a Checkpoint Codec that validates
a persisted Checkpoint Log entry; no such decoder exists in the source. This
renders the entry schema of §6: `id`, `description`, `status` strings and a
well-formed `timestamp`. -/
def isWellFormedEntry (j : Json) : Bool :=
  match j.getField "id", j.getField "description", j.getField "status",
        j.getField "timestamp" with
  | some (.str _), some (.str _), some (.str _), some (.str ts) => isIsoTimestamp ts
  | _, _, _, _ => false

/-- Modelled from the spec: §4.1 describes a Checkpoint Codec that validates
a persisted Checkpoint Log; no such decoder exists in the source. This
renders the log schema of §6: `taskId` and `objective` strings, numeric
`taskCount`, a `tasks` array of well-formed entries, and an optional
well-formed `lastReinject` timestamp. -/
def isWellFormedCheckpoint (j : Json) : Bool :=
  match j.getField "taskId", j.getField "objective", j.getField "taskCount",
        j.getField "tasks" with
  | some (.str _), some (.str _), some (.num _), some (.arr entries) =>
    entries.all isWellFormedEntry &&
    (match j.getField "lastReinject" with
     | none => true
     | some (.str ts) => isIsoTimestamp ts
     | some _ => false)
  | _, _, _, _ => false

/-- The strings of the list occur in the string, in order, as disjoint
substrings. -/
def containsInOrder (s : String) : List String → Prop
  | [] => True
  | x :: rest => ∃ p q, s = p ++ x ++ q ∧ containsInOrder q rest

/-- A task record as written by `create`. -/
def sampleRecord : TaskStatus :=
  { status := "running", owner := "test-owner", details := "Initial details",
    started_at := "2024-01-15T10:30:00.000Z",
    updated_at := "2024-01-15T10:30:00.000Z" }

/-- A one-record task store holding `sampleRecord` under id `task-1`. -/
def sampleStore : TaskStore := [("task-1", sampleRecord)]

/-- A checkpoint log with four entries recorded, one call away from the
threshold. -/
def sampleLog : FocusCheckpoint :=
  { taskId := "task-1", objective := "Ship v1", taskCount := 4,
    tasks := [{ id := "e1", description := "step1", status := "running",
                timestamp := "2024-01-15T10:31:00.000Z" },
              { id := "e2", description := "step2", status := "running",
                timestamp := "2024-01-15T10:32:00.000Z" },
              { id := "e3", description := "step3", status := "completed",
                timestamp := "2024-01-15T10:33:00.000Z" },
              { id := "e4", description := "step4", status := "running",
                timestamp := "2024-01-15T10:34:00.000Z" }],
    lastReinject := none }

/-- A one-log focus store holding `sampleLog` under id `task-1`. -/
def sampleFocusStore : FocusStore := [("task-1", sampleLog)]

/-- A parseable checkpoint payload with no `objective` field at all. -/
def malformedLog : Json :=
  Json.obj [("taskId", Json.str "task-1"), ("taskCount", Json.num 3)]

/-- Two successive update calls with increasing clock readings. -/
def sampleCalls : List UpdateCall :=
  [{ new_status := "completed", new_details := "First update",
     now := "2024-01-15T10:31:00.000Z" },
   { new_status := "blocked", new_details := "  Waiting  ",
     now := "2024-01-15T10:32:00.000Z" }]

/-- The record stored under `task-1` after running `sampleCalls` on
`sampleStore`. -/
def sampleFinalRecord : TaskStatus :=
  { status := "blocked", owner := "test-owner", details := "Waiting",
    started_at := "2024-01-15T10:30:00.000Z",
    updated_at := "2024-01-15T10:32:00.000Z" }

/-- The store produced by running `sampleCalls` on `sampleStore`. -/
def sampleFinalStore : TaskStore := [("task-1", sampleFinalRecord)]

theorem storeGet_storeSet_self {α : Type} (store : List (String × α)) (k : String) (v : α) :
    storeGet (storeSet store k v) k = some v := by
  induction store with
  | nil => simp [storeGet, storeSet, List.lookup]
  | cons hd rest ih =>
    obtain ⟨k', w⟩ := hd
    by_cases h : k' = k
    · simp [storeGet, storeSet, List.lookup, h]
    · have h2 : (k' == k) = false := by simp [h]
      have h3 : (k == k') = false := by simp [Ne.symm h]
      simpa [storeGet, storeSet, List.lookup, h2, h3] using ih

theorem containsInOrder_prepend (t : String) {s : String} {l : List String}
    (h : containsInOrder s l) : containsInOrder (t ++ s) l := by
  cases l with
  | nil => trivial
  | cons x rest =>
    obtain ⟨p, q, hs, hrest⟩ := h
    exact ⟨t ++ p, q, by rw [hs]; simp [String.append_assoc], hrest⟩

theorem containsInOrder_append {s t : String} {l1 l2 : List String}
    (h1 : containsInOrder s l1) (h2 : containsInOrder t l2) :
    containsInOrder (s ++ t) (l1 ++ l2) := by
  induction l1 generalizing s with
  | nil => exact containsInOrder_prepend s h2
  | cons x rest ih =>
    obtain ⟨p, q, hs, hrest⟩ := h1
    exact ⟨p, q ++ t, by rw [hs]; simp [String.append_assoc], ih hrest⟩

theorem containsInOrder_cons (p : String) {q : String} (x : String) {l : List String}
    (h : containsInOrder q l) : containsInOrder (p ++ (x ++ q)) (x :: l) :=
  ⟨p, q, by simp [String.append_assoc], h⟩

theorem joinLines_dash {α : Type} (f : α → String) (l : List α) :
    containsInOrder (joinLines (l.map (fun t => "- " ++ f t))) (l.map f) := by
  induction l with
  | nil => trivial
  | cons a rest ih =>
    cases rest with
    | nil =>
      exact ⟨"- ", "", by simp [joinLines, String.append_assoc, String.append_empty], trivial⟩
    | cons b rest' =>
      refine ⟨"- ", "\n" ++ joinLines ((b :: rest').map (fun t => "- " ++ f t)), ?_, ?_⟩
      · simp [joinLines, String.append_assoc]
      · exact containsInOrder_prepend "\n" ih

theorem updateRun_ok {store : TaskStore} {now task_id new_status new_details : String}
    {store1 : TaskStore}
    (h : updateRun store now task_id new_status new_details = (store1, .ok ())) :
    ∃ r, storeGet store (jsTrim task_id) = some r ∧
      store1 = storeSet store (jsTrim task_id)
        { status := new_status, owner := r.owner, details := jsTrim new_details,
          started_at := r.started_at, updated_at := now } := by
  unfold updateRun at h
  split at h
  · simp at h
  · split at h
    · simp at h
    · split at h
      · simp at h
      · split at h
        · simp at h
        · rename_i r heq
          split at h
          · simp at h
          · exact ⟨r, heq, by simpa using congrArg Prod.fst h.symm⟩

theorem updateRun_invalid_status {store : TaskStore} {now task_id new_status new_details : String}
    (hid : (jsTrim task_id).length ≠ 0)
    (hdet : (jsTrim new_details).length ≠ 0)
    (hst : validStatuses.contains new_status = false) :
    updateRun store now task_id new_status new_details =
      (store, .error (.invalidStatus new_status)) := by
  unfold updateRun
  rw [if_neg hid, if_neg hdet, if_pos hst]

/-- C1: the claim (and the repository's own test, which asserts that
`update(taskId, "completed", "")` "should be allowed") requires an update
with empty `newDetails` to succeed; the code instead rejects it up front.
On a store holding a valid record under `task-1`, the call fails with the
non-empty-details validation error and the store is returned unchanged. -/
theorem c1_update_empty_details_rejected :
    updateRun sampleStore "2024-01-15T10:31:00.000Z" "task-1" "completed" "" =
      (sampleStore,
       .error (.validation "Details parameter is required and must be a non-empty string")) := by
  rfl

/-- C5: for an existing task record and any status outside the four
enumerated values, `update` fails with `InvalidStatus` and returns the store
unchanged — the status check runs before anything is written. The task id
and the trimmed details must be non-empty, since those argument checks run
even earlier and fail with `ValidationError` instead. -/
theorem c5_invalid_status_leaves_store_unchanged :
    ∀ (store : TaskStore) (now task_id new_status new_details : String) (r : TaskStatus),
    storeGet store (jsTrim task_id) = some r →
    (jsTrim task_id).length ≠ 0 →
    (jsTrim new_details).length ≠ 0 →
    validStatuses.contains new_status = false →
    updateRun store now task_id new_status new_details =
      (store, .error (.invalidStatus new_status)) := by
  intro store now task_id new_status new_details r _ hid hdet hst
  exact updateRun_invalid_status hid hdet hst

/-- Witness for C5 at a concrete store, record, and status `cancelled`. -/
theorem c5_witness :
    storeGet sampleStore (jsTrim "task-1") = some sampleRecord ∧
    updateRun sampleStore "2024-01-15T10:31:00.000Z" "task-1" "cancelled" "Still working" =
      (sampleStore, .error (.invalidStatus "cancelled")) :=
  ⟨rfl, c5_invalid_status_leaves_store_unchanged sampleStore "2024-01-15T10:31:00.000Z"
    "task-1" "cancelled" "Still working" sampleRecord rfl (by decide) (by decide) rfl⟩

/-- C10: the status-enumeration check precedes the record-existence check:
when no record exists for the (trimmed, non-empty) id and the status is
outside the enumeration, `update` fails with `InvalidStatus`, not
`NotFound`. Non-empty trimmed details are assumed because that argument
check runs even earlier. -/
theorem c10_status_check_precedes_existence :
    ∀ (store : TaskStore) (now task_id new_status new_details : String),
    storeGet store (jsTrim task_id) = none →
    (jsTrim task_id).length ≠ 0 →
    (jsTrim new_details).length ≠ 0 →
    validStatuses.contains new_status = false →
    updateRun store now task_id new_status new_details =
      (store, .error (.invalidStatus new_status)) := by
  intro store now task_id new_status new_details _ hid hdet hst
  exact updateRun_invalid_status hid hdet hst

/-- Witness for C10 on the empty store and status `paused`. -/
theorem c10_witness :
    storeGet ([] : TaskStore) (jsTrim "ghost-task") = none ∧
    updateRun [] "2024-01-15T10:31:00.000Z" "ghost-task" "paused" "Some details" =
      ([], .error (.invalidStatus "paused")) :=
  ⟨rfl, c10_status_check_precedes_existence [] "2024-01-15T10:31:00.000Z"
    "ghost-task" "paused" "Some details" rfl (by decide) (by decide) rfl⟩

/-- C7: `create` fails with a validation error whenever owner or details is
empty after trimming (leaving the store unchanged), and on non-empty trimmed
arguments it stores, under the freshly generated id, a record carrying the
trimmed strings, status `running`, and `started_at` equal to `updated_at`,
returning that id. -/
theorem c7_create_validation_and_fields :
    (∀ (store : TaskStore) (owner details freshId now : String),
      (jsTrim owner).length = 0 ∨ (jsTrim details).length = 0 →
      (create store owner details freshId now).1 = store ∧
      ∃ msg, (create store owner details freshId now).2 = .error (.validation msg)) ∧
    (∀ (store : TaskStore) (owner details freshId now : String),
      (jsTrim owner).length ≠ 0 → (jsTrim details).length ≠ 0 →
      create store owner details freshId now =
        (storeSet store freshId
          { status := "running", owner := jsTrim owner, details := jsTrim details,
            started_at := now, updated_at := now }, .ok freshId) ∧
      storeGet (create store owner details freshId now).1 freshId =
        some { status := "running", owner := jsTrim owner, details := jsTrim details,
               started_at := now, updated_at := now }) := by
  constructor
  · intro store owner details freshId now h
    by_cases h1 : (jsTrim owner).length = 0
    · unfold create
      rw [if_pos h1]
      exact ⟨rfl, _, rfl⟩
    · have h2 : (jsTrim details).length = 0 := h.resolve_left h1
      unfold create
      rw [if_neg h1, if_pos h2]
      exact ⟨rfl, _, rfl⟩
  · intro store owner details freshId now h1 h2
    have hc : create store owner details freshId now =
        (storeSet store freshId
          { status := "running", owner := jsTrim owner, details := jsTrim details,
            started_at := now, updated_at := now }, .ok freshId) := by
      unfold create
      rw [if_neg h1, if_neg h2]
    exact ⟨hc, by rw [hc]; exact storeGet_storeSet_self store freshId _⟩

/-- Witness for C7: a whitespace-only owner is rejected; valid arguments
with surrounding whitespace are stored trimmed. -/
theorem c7_witness :
    ((create [] "   " "Valid details" "id-1" "2024-01-15T10:30:00.000Z").1 = [] ∧
     ∃ msg, (create [] "   " "Valid details" "id-1" "2024-01-15T10:30:00.000Z").2 =
       .error (.validation msg)) ∧
    (create [] "agent-1" "  start  " "id-1" "2024-01-15T10:30:00.000Z" =
      (storeSet [] "id-1"
        { status := "running", owner := jsTrim "agent-1", details := jsTrim "  start  ",
          started_at := "2024-01-15T10:30:00.000Z",
          updated_at := "2024-01-15T10:30:00.000Z" }, .ok "id-1") ∧
     storeGet (create [] "agent-1" "  start  " "id-1" "2024-01-15T10:30:00.000Z").1 "id-1" =
       some { status := "running", owner := jsTrim "agent-1", details := jsTrim "  start  ",
              started_at := "2024-01-15T10:30:00.000Z",
              updated_at := "2024-01-15T10:30:00.000Z" }) :=
  ⟨c7_create_validation_and_fields.1 [] "   " "Valid details" "id-1"
     "2024-01-15T10:30:00.000Z" (Or.inl (by decide)),
   c7_create_validation_and_fields.2 [] "agent-1" "  start  " "id-1"
     "2024-01-15T10:30:00.000Z" (by decide) (by decide)⟩

/-- C3: when no log exists for `taskId`, `addFocusCheckpoint` only runs
`initializeFocusChain(taskId, description)` — creating a log whose objective
is this call's description, with `taskCount = 0` and no entries — and
returns no message; the triggering call is not recorded as an entry. -/
theorem c3_first_contact_initializes :
    ∀ (store : FocusStore) (taskId description status freshId now : String),
    storeGet store taskId = none →
    addFocusCheckpoint store taskId description status freshId now =
      (initializeFocusChain store taskId description, none) ∧
    storeGet (addFocusCheckpoint store taskId description status freshId now).1 taskId =
      some { taskId := taskId, objective := description, taskCount := 0,
             tasks := [], lastReinject := none } := by
  intro store taskId description status freshId now h
  have h1 : addFocusCheckpoint store taskId description status freshId now =
      (initializeFocusChain store taskId description, none) := by
    unfold addFocusCheckpoint
    rw [h]
  refine ⟨h1, ?_⟩
  rw [h1]
  exact storeGet_storeSet_self store taskId (initLog taskId description)

/-- Witness for C3 on the empty checkpoint store. -/
theorem c3_witness :
    storeGet ([] : FocusStore) "task-9" = none ∧
    addFocusCheckpoint [] "task-9" "implement login" "running" "e1"
        "2024-01-15T10:31:00.000Z" =
      (initializeFocusChain [] "task-9" "implement login", none) ∧
    storeGet (addFocusCheckpoint [] "task-9" "implement login" "running" "e1"
        "2024-01-15T10:31:00.000Z").1 "task-9" =
      some { taskId := "task-9", objective := "implement login", taskCount := 0,
             tasks := [], lastReinject := none } :=
  ⟨rfl, c3_first_contact_initializes [] "task-9" "implement login" "running" "e1"
     "2024-01-15T10:31:00.000Z" rfl⟩

/-- C2: on an existing log, `addFocusCheckpoint` appends exactly one entry
and increments `taskCount`; it returns a reinjection message exactly when
the incremented `taskCount` is a multiple of the threshold 5 (the 5th, 10th,
15th, ... calls), and whenever a message is returned the stored log's
`lastReinject` is set to this call's time. -/
theorem c2_append_and_threshold :
    ∀ (store : FocusStore) (taskId : String) (c : FocusCheckpoint)
      (description status freshId now : String),
    storeGet store taskId = some c →
    ∃ c', storeGet (addFocusCheckpoint store taskId description status freshId now).1 taskId =
        some c' ∧
      c'.tasks = c.tasks ++ [{ id := freshId, description := description,
                               status := status, timestamp := now }] ∧
      c'.taskCount = c.taskCount + 1 ∧
      ((addFocusCheckpoint store taskId description status freshId now).2.isSome ↔
        (c.taskCount + 1) % 5 = 0) ∧
      ((addFocusCheckpoint store taskId description status freshId now).2.isSome →
        c'.lastReinject = some now) := by
  intro store taskId c description status freshId now h
  by_cases hmod : (c.taskCount + 1) % 5 = 0
  · have hrun : addFocusCheckpoint store taskId description status freshId now =
        (storeSet store taskId
          { taskId := c.taskId, objective := c.objective, taskCount := c.taskCount + 1,
            tasks := c.tasks ++ [{ id := freshId, description := description,
                                   status := status, timestamp := now }],
            lastReinject := some now },
         some (generateFocusReinject
          { taskId := c.taskId, objective := c.objective, taskCount := c.taskCount + 1,
            tasks := c.tasks ++ [{ id := freshId, description := description,
                                   status := status, timestamp := now }],
            lastReinject := c.lastReinject })) := by
      unfold addFocusCheckpoint addCheckpointStep
      rw [h]
      simp [hmod]
    refine ⟨{ taskId := c.taskId, objective := c.objective, taskCount := c.taskCount + 1,
              tasks := c.tasks ++ [{ id := freshId, description := description,
                                     status := status, timestamp := now }],
              lastReinject := some now }, ?_, rfl, rfl, ?_, fun _ => rfl⟩
    · rw [hrun]
      exact storeGet_storeSet_self store taskId _
    · rw [hrun]
      simpa using hmod
  · have hrun : addFocusCheckpoint store taskId description status freshId now =
        (storeSet store taskId
          { taskId := c.taskId, objective := c.objective, taskCount := c.taskCount + 1,
            tasks := c.tasks ++ [{ id := freshId, description := description,
                                   status := status, timestamp := now }],
            lastReinject := c.lastReinject },
         none) := by
      unfold addFocusCheckpoint addCheckpointStep
      rw [h]
      simp [hmod]
    refine ⟨{ taskId := c.taskId, objective := c.objective, taskCount := c.taskCount + 1,
              tasks := c.tasks ++ [{ id := freshId, description := description,
                                     status := status, timestamp := now }],
              lastReinject := c.lastReinject }, ?_, rfl, rfl, ?_, ?_⟩
    · rw [hrun]
      exact storeGet_storeSet_self store taskId _
    · rw [hrun]
      simpa using hmod
    · rw [hrun]
      intro hsome
      simp at hsome

/-- Witness for C2: the fifth checkpoint on `sampleLog` (four entries
recorded) yields a message and stamps `lastReinject`. -/
theorem c2_witness :
    storeGet sampleFocusStore "task-1" = some sampleLog ∧
    ∃ c', storeGet (addFocusCheckpoint sampleFocusStore "task-1" "step5" "completed" "e5"
        "2024-01-15T10:35:00.000Z").1 "task-1" = some c' ∧
      c'.tasks = sampleLog.tasks ++ [{ id := "e5", description := "step5",
                                       status := "completed",
                                       timestamp := "2024-01-15T10:35:00.000Z" }] ∧
      c'.taskCount = sampleLog.taskCount + 1 ∧
      ((addFocusCheckpoint sampleFocusStore "task-1" "step5" "completed" "e5"
          "2024-01-15T10:35:00.000Z").2.isSome ↔ (sampleLog.taskCount + 1) % 5 = 0) ∧
      ((addFocusCheckpoint sampleFocusStore "task-1" "step5" "completed" "e5"
          "2024-01-15T10:35:00.000Z").2.isSome →
        c'.lastReinject = some "2024-01-15T10:35:00.000Z") :=
  ⟨rfl, c2_append_and_threshold sampleFocusStore "task-1" sampleLog "step5" "completed"
     "e5" "2024-01-15T10:35:00.000Z" rfl⟩

/-- C8: `taskCount` equals the number of entries on every log the engine
itself produces: initialization establishes it (count 0, no entries), each
`addFocusCheckpoint` step appends exactly one entry to the end — never
reordering or removing any — while incrementing the count, and the invariant
holds for every reachable log. -/
theorem c8_taskcount_invariant :
    (∀ taskId objective, (initLog taskId objective).tasks = [] ∧
      (initLog taskId objective).taskCount = 0) ∧
    (∀ (c : FocusCheckpoint) (description status freshId now : String),
      (addCheckpointStep c description status freshId now).1.tasks =
        c.tasks ++ [{ id := freshId, description := description,
                      status := status, timestamp := now }] ∧
      (addCheckpointStep c description status freshId now).1.taskCount = c.taskCount + 1) ∧
    (∀ c, ReachableLog c → c.taskCount = c.tasks.length) := by
  have hstep : ∀ (c : FocusCheckpoint) (description status freshId now : String),
      (addCheckpointStep c description status freshId now).1.tasks =
        c.tasks ++ [{ id := freshId, description := description,
                      status := status, timestamp := now }] ∧
      (addCheckpointStep c description status freshId now).1.taskCount = c.taskCount + 1 := by
    intro c description status freshId now
    unfold addCheckpointStep
    by_cases hmod : ({ c with
        tasks := c.tasks ++ [{ id := freshId, description := description,
                               status := status, timestamp := now }],
        taskCount := c.taskCount + 1 : FocusCheckpoint }).taskCount % 5 = 0
    · rw [if_pos hmod]
      exact ⟨rfl, rfl⟩
    · rw [if_neg hmod]
      exact ⟨rfl, rfl⟩
  refine ⟨fun taskId objective => ⟨rfl, rfl⟩, hstep, ?_⟩
  intro c hreach
  induction hreach with
  | init taskId objective => rfl
  | step c description status freshId now _ ih =>
    rcases hstep c description status freshId now with ⟨h1, h2⟩
    rw [h1, h2, ih]
    simp

/-- Witness for C8: the invariant holds on the log obtained by one
checkpoint step after initialization. -/
theorem c8_witness :
    (addCheckpointStep (initLog "task-1" "Ship v1") "step1" "running" "e1"
        "2024-01-15T10:31:00.000Z").1.taskCount =
      (addCheckpointStep (initLog "task-1" "Ship v1") "step1" "running" "e1"
        "2024-01-15T10:31:00.000Z").1.tasks.length :=
  c8_taskcount_invariant.2.2 _
    (ReachableLog.step (initLog "task-1" "Ship v1") "step1" "running" "e1"
      "2024-01-15T10:31:00.000Z" (ReachableLog.init "task-1" "Ship v1"))

/-- C9 counterexample: the claim says a persisted checkpoint payload whose
`objective` is missing fails decoding with `SchemaViolation`, and that
`getFocusStatus` rejects such a malformed-but-parseable log. The code does
no schema validation at all: on a store holding a parseable log with no
`objective` field, `getFocusStatus` returns that payload unchanged. -/
theorem c9_counterexample_no_rejection :
    getFocusStatusJson [("task-1", FileContent.parseable malformedLog)] "task-1" =
      .ok (some malformedLog) ∧
    malformedLog.getField "objective" = none ∧
    isWellFormedCheckpoint malformedLog = false :=
  ⟨rfl, rfl, rfl⟩

/-- C9 as amended: `getFocusStatus` performs no schema validation — every
parseable stored payload is returned exactly as parsed, even when it
violates the checkpoint schema; only a missing file yields absence and only
an unparseable payload fails (with a propagated parse error). -/
theorem c9_get_focus_status_no_validation :
    ∀ (files : List (String × FileContent)) (taskId : String) (j : Json),
    storeGet files taskId = some (FileContent.parseable j) →
    isWellFormedCheckpoint j = false →
    getFocusStatusJson files taskId = .ok (some j) := by
  intro files taskId j h _
  unfold getFocusStatusJson
  rw [h]

/-- Witness for the amended C9 at the malformed payload. -/
theorem c9_witness :
    getFocusStatusJson [("task-1", FileContent.parseable malformedLog)] "task-1" =
      .ok (some malformedLog) :=
  c9_get_focus_status_no_validation [("task-1", FileContent.parseable malformedLog)]
    "task-1" malformedLog rfl rfl

/-- C6: across any sequence of successful `update` calls against one task,
the stored record keeps the `owner` and `started_at` it had before the
sequence, the `updated_at` observed after each call is exactly that call's
clock reading, and therefore `updated_at` is non-decreasing across the
sequence whenever the clock readings are. -/
theorem c6_update_frame_and_monotonicity :
    ∀ (calls : List UpdateCall) (store : TaskStore) (task_id : String)
      (store' : TaskStore) (r r' : TaskStatus),
    storeGet store (jsTrim task_id) = some r →
    runUpdates store task_id calls = .ok store' →
    storeGet store' (jsTrim task_id) = some r' →
    (r'.owner = r.owner ∧ r'.started_at = r.started_at) ∧
    updatedList store task_id calls = calls.map (fun call => call.now) ∧
    (nondecreasing (r.updated_at :: calls.map (fun call => call.now)) = true →
     nondecreasing (r.updated_at :: updatedList store task_id calls) = true) := by
  intro calls
  induction calls with
  | nil =>
    intro store task_id store' r r' hget hrun hget'
    have hstore : store' = store := by
      simpa [runUpdates] using hrun.symm
    subst hstore
    rw [hget] at hget'
    injection hget' with hr
    subst hr
    exact ⟨⟨rfl, rfl⟩, rfl, fun h => h⟩
  | cons call rest ih =>
    intro store task_id store' r r' hget hrun hget'
    rcases hres : updateRun store call.now task_id call.new_status call.new_details
      with ⟨store1, res⟩
    cases res with
    | error e =>
      simp only [runUpdates, hres] at hrun
      exact absurd hrun (by simp)
    | ok u =>
      cases u
      have hrun' : runUpdates store1 task_id rest = .ok store' := by
        simpa only [runUpdates, hres] using hrun
      obtain ⟨r0, hget0, hstore1⟩ := updateRun_ok hres
      rw [hget] at hget0
      injection hget0 with hr0
      subst hr0
      have hget1 : storeGet store1 (jsTrim task_id) =
          some { status := call.new_status, owner := r.owner,
                 details := jsTrim call.new_details, started_at := r.started_at,
                 updated_at := call.now } := by
        rw [hstore1]
        exact storeGet_storeSet_self store (jsTrim task_id) _
      obtain ⟨⟨hown, hstart⟩, hlist, _⟩ := ih store1 task_id store' _ r' hget1 hrun' hget'
      refine ⟨⟨hown, hstart⟩, ?_, ?_⟩
      · simp only [updatedList, hres, hget1, hlist, List.map_cons]
      · intro hnd
        simpa only [updatedList, hres, hget1, hlist, List.map_cons] using hnd

/-- Witness for C6: two successful updates on `sampleStore` preserve owner
and creation timestamp and record each call's clock reading. -/
theorem c6_witness :
    (sampleFinalRecord.owner = sampleRecord.owner ∧
     sampleFinalRecord.started_at = sampleRecord.started_at) ∧
    updatedList sampleStore "task-1" sampleCalls =
      sampleCalls.map (fun call => call.now) ∧
    (nondecreasing (sampleRecord.updated_at ::
        sampleCalls.map (fun call => call.now)) = true →
     nondecreasing (sampleRecord.updated_at ::
        updatedList sampleStore "task-1" sampleCalls) = true) :=
  c6_update_frame_and_monotonicity sampleCalls sampleStore "task-1" sampleFinalStore
    sampleRecord sampleFinalRecord rfl rfl rfl

/-- C4: the reinjection message contains, in order: the log's objective
verbatim; the count and then the descriptions of the entries whose status
equals the literal `completed`, in their original relative order (the
`filter`-based partition preserves order); the count and then the
descriptions of all other entries, likewise in order; and the fixed
cautionary note against scope drift. -/
theorem c4_reinject_message_content :
    ∀ c : FocusCheckpoint,
    containsInOrder (generateFocusReinject c)
      (c.objective ::
       toString (c.tasks.filter (fun t => t.status == "completed")).length ::
       ((c.tasks.filter (fun t => t.status == "completed")).map (fun t => t.description) ++
        toString (c.tasks.filter (fun t => t.status != "completed")).length ::
        ((c.tasks.filter (fun t => t.status != "completed")).map (fun t => t.description) ++
         ["CRITICAL: Stay focused on original objective. No scope creep."]))) := by
  intro c
  have hmsg : generateFocusReinject c =
      ("\uF8FFüéØ FOCUS REINJECT - TASK #" ++ toString c.taskCount ++ "\n" ++ lineSep ++ "\n" ++
        "ORIGINAL OBJECTIVE: ") ++
      (c.objective ++
       (("\n" ++ lineSep ++ "\n" ++ "\n" ++ "‚úÖ COMPLETED (") ++
        (toString (c.tasks.filter (fun t => t.status == "completed")).length ++
         ("):\n" ++
          (joinLines ((c.tasks.filter (fun t => t.status == "completed")).map
              (fun t => "- " ++ t.description)) ++
           (("\n" ++ "\n" ++ "‚è≥ REMAINING (") ++
            (toString (c.tasks.filter (fun t => t.status != "completed")).length ++
             ("):\n" ++
              (joinLines ((c.tasks.filter (fun t => t.status != "completed")).map
                  (fun t => "- " ++ t.description)) ++
               ("\n" ++ "\n" ++
                "‚ö†Ô∏è CRITICAL: Stay focused on original objective. No scope creep.")))))))))) := by
    simp only [generateFocusReinject, String.append_assoc]
  rw [hmsg]
  refine containsInOrder_cons _ c.objective ?_
  refine containsInOrder_cons _ _ ?_
  refine containsInOrder_prepend "):\n" ?_
  refine containsInOrder_append (joinLines_dash (fun t : FocusTask => t.description) _) ?_
  refine containsInOrder_cons _ _ ?_
  refine containsInOrder_prepend "):\n" ?_
  refine containsInOrder_append (joinLines_dash (fun t : FocusTask => t.description) _) ?_
  exact ⟨"\n" ++ "\n" ++ "‚ö†Ô∏è ", "", by rfl, trivial⟩

end TaskStatusChecker
